import Mathlib

/-!
Verification of the AGT jcore agent substrate.

This file gives a shallow embedding, in Lean 4, of the parts of the
repository that the frozen claims talk about:

* `core/interop/bridge.py` (class `InteropBridge`): envelope construction,
  validation, replay defense, sending with hub fallback, relay forwarding,
  and the daily skills check-in loop;
* `core/policy.py` (class `PolicyEngine`): the tier table;
* `core/approval/engine.py` (class `ApprovalEngine`): the durable
  approval lifecycle;
* `core/tools/registry.py` (class `ToolRegistry`): post-approval
  execution.

Modelling conventions:

* SQLite tables become Lean lists; an `INSERT` appends at the tail, so
  list order is `id` order.  Rows store parsed JSON values directly
  (the `json.dumps`/`json.loads` round trip through TEXT columns is the
  identity on the values involved).
* Python dicts with string keys become association lists whose insert
  replaces an existing key in place (Python dict assignment semantics,
  preserving insertion order).
* External library primitives that the code calls through `hashlib`,
  `hmac` and `cryptography` are parameters of the model: `hmacHex`
  models `hmac.new(shared_key, msg, hashlib.sha256).hexdigest()` for the
  key loaded from the secrets dir, `sv2` models `_sign_v2`'s Ed25519
  signing (returning `none` when the private key file is absent), and
  `ed` models the Ed25519 verification primitive used by `_verify_v2`
  (returning `false` when verification throws).  The properties proved
  here do not depend on the internals of those primitives.
* Network I/O (`_post_envelope`) is a parameter
  `net : String -> Envelope -> Except String Json`; `.error` models the
  `URLError`/`JSONDecodeError` exceptions that `urlopen`/`json.loads`
  can raise.
* Python exceptions become the `PyErr` error type of an `Except` result
  paired with the (possibly updated) store state, since the store keeps
  whatever was committed before the exception was raised.
-/

namespace JCore

/-- A JSON value as handled by the Python code (`json` module values on
the wire: objects, arrays, strings, integers, booleans and null).  The
repository only ever serializes integers, so numbers are `Int`. -/
inductive Json where
  | null : Json
  | bool (b : Bool) : Json
  | int (n : Int) : Json
  | str (s : String) : Json
  | arr (xs : List Json) : Json
  | obj (kvs : List (String × Json)) : Json

/-- Python truthiness of a parsed JSON value (used by
`approval.get("execution_result") or \x7b\x7d` and `if not target`). -/
def Json.isTruthy : Json → Bool
  | .null => false
  | .bool b => b
  | .int n => n != 0
  | .str s => s != ""
  | .arr xs => !xs.isEmpty
  | .obj kvs => !kvs.isEmpty

/-- Whether the value is a JSON object (`isinstance(x, dict)`). -/
def Json.isObj : Json → Bool
  | .obj _ => true
  | _ => false

/-- Dictionary lookup `d.get(k)` on a JSON object (`none` on non-objects
or missing keys). -/
def Json.objGet : Json → String → Option Json
  | .obj kvs, k => (kvs.find? (fun kv => kv.1 == k)).map (·.2)
  | _, _ => none

/-- Dictionary assignment `d[k] = v` on an association list: replaces
the first binding of `k` in place, else appends (Python dict update
semantics). -/
def dictInsert {α : Type} (l : List (String × α)) (k : String) (v : α) :
    List (String × α) :=
  if l.any (fun kv => kv.1 == k) then
    l.map (fun kv => if kv.1 == k then (k, v) else kv)
  else
    l ++ [(k, v)]

/-- Dictionary assignment on a JSON object value (returns non-objects
unchanged; the code only assigns into dicts). -/
def Json.objSet : Json → String → Json → Json
  | .obj kvs, k, v => .obj (dictInsert kvs k v)
  | j, _, _ => j

/-- ASCII whitespace recognized by Python `str.strip()` (the repository
only strips config strings, which are ASCII). -/
def pyWhitespace (c : Char) : Bool :=
  c == ' ' || c == '\t' || c == '\n' || c == '\r' || c == '\x0b' || c == '\x0c'

/-- Python `s.strip()`. -/
def pyStrip (s : String) : String :=
  String.mk (((s.data.dropWhile pyWhitespace).reverse.dropWhile pyWhitespace).reverse)

/-- Python `s.endswith(suffix)`. -/
def pyEndsWith (s suffix : String) : Bool :=
  suffix.data.isSuffixOf s.data

/-- Minimal JSON string escaping as performed by `json.dumps` for the
characters appearing in this system (quote, backslash and the common
control characters). -/
def jsonEscapeChar (c : Char) : String :=
  if c == '"' then "\\\""
  else if c == '\\' then "\\\\"
  else if c == '\n' then "\\n"
  else if c == '\t' then "\\t"
  else if c == '\r' then "\\r"
  else String.mk [c]

def jsonEscape (s : String) : String :=
  String.join (s.data.map jsonEscapeChar)

/-- Insertion of a rendered key/value pair into a list sorted by raw
key, modelling `json.dumps(..., sort_keys=True)`'s key sort. -/
def insertByKey (p : String × String) :
    List (String × String) → List (String × String)
  | [] => [p]
  | q :: rest => if p.1 < q.1 then p :: q :: rest else q :: insertByKey p rest

def sortByKey (l : List (String × String)) : List (String × String) :=
  l.foldr insertByKey []

mutual
/-- `json.dumps(v, sort_keys=True, separators=(",", ":"))`: compact
serialization with object keys in sorted order at every level. -/
def Json.dump : Json → String
  | .null => "null"
  | .bool true => "true"
  | .bool false => "false"
  | .int n => toString n
  | .str s => "\"" ++ jsonEscape s ++ "\""
  | .arr xs => "[" ++ Json.dumpList xs ++ "]"
  | .obj kvs =>
      "\x7b" ++
        String.intercalate ","
          ((sortByKey (Json.dumpPairs kvs)).map
            (fun kv => "\"" ++ jsonEscape kv.1 ++ "\":" ++ kv.2)) ++
      "\x7d"

def Json.dumpList : List Json → String
  | [] => ""
  | [x] => Json.dump x
  | x :: y :: rest => Json.dump x ++ "," ++ Json.dumpList (y :: rest)

def Json.dumpPairs : List (String × Json) → List (String × String)
  | [] => []
  | (k, v) :: rest => (k, Json.dump v) :: Json.dumpPairs rest
end

/-! ## Interop bridge data model (`core/interop/bridge.py`) -/

/-- A wire envelope holding all the fields `_validate_envelope`'s
`required` set demands (a dict missing one of them is rejected before
anything else happens and is not modelled further); the three identity
fields are optional, as on the wire. -/
structure Envelope where
  source : String
  target : String
  task_type : String
  payload : Json
  nonce : String
  timestamp : Int
  signature : String
  signer : Option String := none
  signature_v2 : Option String := none
  signature_v2_alg : Option String := none

/-- One entry under `nodes:` in the node directory YAML; `none` models
an absent key (`spec.get(...)` default). -/
structure NodeSpec where
  profile : Option String := none
  host : String := ""
  signing_public_key : String := ""

/-- The bridge's configuration inputs: its own profile name, the parsed
node directory (`nodes` mapping and `routing.hub_profile`, both already
string-coerced as the source does), and the content of the
`interop_identity_mode.txt` secrets file (`none` when the file does not
exist). -/
structure BridgeConfig where
  profile_name : String
  nodes : List (String × NodeSpec) := []
  hub_profile_setting : String := ""
  identity_mode_file : Option String := none

structure TargetInfo where
  node_id : String
  host : String

/-- `InteropBridge._configured_targets`: allowlisted peers, keyed by
profile, skipping entries with a blank profile, a blank or `.TBD` host,
or the bridge's own profile. -/
def configured_targets (cfg : BridgeConfig) : List (String × TargetInfo) :=
  cfg.nodes.foldl
    (fun out kv =>
      let profile := pyStrip (kv.2.profile.getD kv.1)
      let host := pyStrip kv.2.host
      if profile == "" || host == "" || pyEndsWith host ".TBD" ||
          profile == cfg.profile_name then
        out
      else
        dictInsert out profile { node_id := kv.1, host := host })
    []

/-- `InteropBridge._routing_hub_profile`. -/
def routing_hub_profile (cfg : BridgeConfig) : Option String :=
  let hub := pyStrip cfg.hub_profile_setting
  if hub != "" then some hub
  else if (configured_targets cfg).any (fun kv => kv.1 == "jason") ||
      cfg.profile_name == "jason" then
    some "jason"
  else none

/-- `InteropBridge._canonical_payload`: the canonical signing form, the
compact sorted-keys JSON serialization of the six covered fields. -/
def canonical_payload (e : Envelope) : String :=
  Json.dump (Json.obj
    [("source", .str e.source), ("target", .str e.target),
     ("task_type", .str e.task_type), ("payload", e.payload),
     ("nonce", .str e.nonce), ("timestamp", .int e.timestamp)])

/-- `InteropBridge._sign`, with `hmacHex` standing for
`hmac.new(shared_key, msg, hashlib.sha256).hexdigest()` at the loaded
shared key. -/
def sign (hmacHex : String → String) (e : Envelope) : String :=
  hmacHex (canonical_payload e)

/-- `InteropBridge._identity_mode`: file content stripped, unknown
values and a missing file default to `compat`. -/
def identity_mode (cfg : BridgeConfig) : String :=
  match cfg.identity_mode_file with
  | none => "compat"
  | some content =>
      let raw := pyStrip content
      if raw == "compat" || raw == "provenance" || raw == "strict" then raw
      else "compat"

/-- `InteropBridge._identity_public_key_for_profile`: first node whose
(stripped) `profile` equals the requested name wins; a blank key on the
matching node yields `none`. -/
def identity_public_key_for_profile (cfg : BridgeConfig)
    (profile_name : String) : Option String :=
  match cfg.nodes.find?
      (fun kv => pyStrip (kv.2.profile.getD "") == profile_name) with
  | none => none
  | some kv =>
      let value := pyStrip kv.2.signing_public_key
      if value == "" then none else some value

/-- `InteropBridge._verify_v2`, with `ed pub sig msg` standing for the
`cryptography` Ed25519 verification (true iff it does not throw). -/
def verify_v2 (cfg : BridgeConfig) (ed : String → String → String → Bool)
    (e : Envelope) : Bool :=
  let signature_v2 := pyStrip (e.signature_v2.getD "")
  let signer := pyStrip ((e.signer.getD e.source))
  if signature_v2 == "" || signer == "" then false
  else
    match identity_public_key_for_profile cfg signer with
    | none => false
    | some pub => ed pub signature_v2 (canonical_payload e)

/-- Whether a v2 identity signature is present
(`bool(str(envelope.get("signature_v2", "")).strip())`). -/
def has_v2 (e : Envelope) : Bool :=
  pyStrip (e.signature_v2.getD "") != ""

/-! ## Persistent store state (tables `interop_nonces`, `interop_messages`) -/

/-- One `interop_nonces` row. -/
structure NonceRecord where
  nonce : String
  source_node : String
  target_node : String

/-- One `interop_messages` row; `created_at` is the insert-time clock in
epoch seconds (`CURRENT_TIMESTAMP` read back through `strftime`). -/
structure MessageRecord where
  direction : String
  source_node : String
  target_node : String
  task_type : String
  payload : Json
  nonce : String
  status : String
  created_at : Int

/-- The store state the bridge reads and writes; lists are in `id`
order, inserts append at the tail. -/
structure BridgeState where
  nonces : List NonceRecord := []
  messages : List MessageRecord := []

/-- Python exceptions escaping a bridge call. -/
inductive PyErr where
  | runtime (msg : String)
  | urlError (msg : String)

/-- `InteropBridge._is_replay`. -/
def is_replay (st : BridgeState) (nonce : String) : Bool :=
  st.nonces.any (fun r => r.nonce == nonce)

/-- `InteropBridge._record_nonce`. -/
def record_nonce (st : BridgeState) (nonce source target : String) :
    BridgeState :=
  { st with nonces := st.nonces ++ [⟨nonce, source, target⟩] }

/-- `InteropBridge._record_message`. -/
def record_message (st : BridgeState) (direction source target task_type :
    String) (payload : Json) (nonce status : String) (created_at : Int) :
    BridgeState :=
  { st with messages := st.messages ++
      [⟨direction, source, target, task_type, payload, nonce, status,
        created_at⟩] }

/-- The maximum tolerated clock skew, `MAX_CLOCK_SKEW_SECONDS`. -/
def MAX_CLOCK_SKEW_SECONDS : Int := 300

/-- The accepted-envelope descriptor `_validate_envelope` returns. -/
structure Accepted where
  source : String
  target : String
  task_type : String
  payload : Json
  nonce : String
  identity_signature_valid : Bool

/-- `InteropBridge._validate_envelope` for an envelope that contains all
required fields (the missing-field branch is unrepresentable on the
`Envelope` type).  `expected_target` keeps the source's
`expected_target or self._profile_name` semantics. -/
def expected_or_profile (cfg : BridgeConfig) : Option String → String
  | none => cfg.profile_name
  | some s => if s == "" then cfg.profile_name else s

def validate_envelope (cfg : BridgeConfig) (hmacHex : String → String)
    (ed : String → String → String → Bool) (now : Int)
    (expected_target : Option String) (verify_replay : Bool)
    (st : BridgeState) (e : Envelope) :
    Except PyErr Accepted × BridgeState :=
  if e.target != expected_or_profile cfg expected_target then
    (.error (.runtime ("Envelope target mismatch: expected " ++
      expected_or_profile cfg expected_target)), st)
  else if (now - e.timestamp).natAbs > MAX_CLOCK_SKEW_SECONDS.natAbs then
    (.error (.runtime "Envelope timestamp outside allowed skew window"), st)
  else if sign hmacHex e != e.signature then
    (.error (.runtime "Envelope signature invalid"), st)
  else if identity_mode cfg == "strict" && !verify_v2 cfg ed e then
    (.error (.runtime
      "Envelope identity signature invalid or missing (strict mode)"), st)
  else if identity_mode cfg == "provenance" && has_v2 e &&
      !verify_v2 cfg ed e then
    (.error (.runtime
      "Envelope identity signature invalid (provenance mode)"), st)
  else if verify_replay then
    if is_replay st e.nonce then
      (.error (.runtime "Replay detected: nonce already seen"), st)
    else
      (.ok ⟨e.source, e.target, e.task_type, e.payload, e.nonce,
        verify_v2 cfg ed e⟩, record_nonce st e.nonce e.source e.target)
  else
    (.ok ⟨e.source, e.target, e.task_type, e.payload, e.nonce,
      verify_v2 cfg ed e⟩, st)

/-- `InteropBridge.receive_envelope`: validate with replay checking,
then append the inbox `MessageRecord`. -/
def receive_envelope (cfg : BridgeConfig) (hmacHex : String → String)
    (ed : String → String → String → Bool) (now : Int)
    (st : BridgeState) (e : Envelope) :
    Except PyErr Accepted × BridgeState :=
  match validate_envelope cfg hmacHex ed now (some cfg.profile_name) true
      st e with
  | (.error err, st1) => (.error err, st1)
  | (.ok acc, st1) =>
      (.ok acc,
        record_message st1 "inbox" acc.source acc.target acc.task_type
          acc.payload acc.nonce "received" now)

/-! ## Outbound send path -/

/-- The nondeterministic inputs of one `send_task` call: the fresh nonce
drawn by `build_envelope` for the primary envelope (`nonce1`), the one
for the relay envelope a hub route may build (`nonce2`), and the wall
clock `int(time.time())`. -/
structure Gen where
  nonce1 : String := ""
  nonce2 : String := ""
  now : Int := 0

/-- `InteropBridge.build_envelope`; `sv2` models `_sign_v2` applied to
the canonical form (`none` when no usable Ed25519 private key exists).
The `source_override or self._profile_name` disjunction treats an empty
override like an absent one, as Python `or` does. -/
def build_envelope (cfg : BridgeConfig) (hmacHex : String → String)
    (sv2 : String → Option String) (nonce : String) (now : Int)
    (target task_type : String) (payload : Json)
    (source_override : Option String := none) : Envelope :=
  let src :=
    match source_override with
    | none => cfg.profile_name
    | some s => if s == "" then cfg.profile_name else s
  let base : Envelope :=
    { source := src, target := target, task_type := task_type,
      payload := payload, nonce := nonce, timestamp := now,
      signature := "" }
  let signed := { base with signature := sign hmacHex base }
  match sv2 (canonical_payload base) with
  | none => signed
  | some identity_sig =>
      { signed with
        signer := some src
        signature_v2 := some identity_sig
        signature_v2_alg := some "ed25519" }

/-- The envelope as a JSON object, as embedded in a `route_envelope`
relay payload (`\x7b"envelope": envelope\x7d`). -/
def envelopeToJson (e : Envelope) : Json :=
  Json.obj
    ([("source", .str e.source), ("target", .str e.target),
      ("task_type", .str e.task_type), ("payload", e.payload),
      ("nonce", .str e.nonce), ("timestamp", .int e.timestamp),
      ("signature", .str e.signature)] ++
     (match e.signer with | none => [] | some s => [("signer", Json.str s)]) ++
     (match e.signature_v2 with
      | none => [] | some s => [("signature_v2", Json.str s)]) ++
     (match e.signature_v2_alg with
      | none => [] | some s => [("signature_v2_alg", Json.str s)]))

/-- `InteropBridge._payload_for_log`: copy the payload and, when the
response carries a dict `reply`, attach it with its `message` truncated
to 597 characters plus an ellipsis when longer than 600. -/
def payload_for_log (payload : Json) (response_payload : Option Json) :
    Json :=
  let out := payload
  match response_payload with
  | some (Json.obj kvs) =>
      match (Json.obj kvs).objGet "reply" with
      | some (Json.obj rkvs) =>
          let reply :=
            match (Json.obj rkvs).objGet "message" with
            | some (Json.str msg) =>
                if msg.data.length > 600 then
                  (Json.obj rkvs).objSet "message"
                    (.str (String.mk (msg.data.take 597) ++ "..."))
                else Json.obj rkvs
            | _ => Json.obj rkvs
          out.objSet "reply" reply
      | _ => out
  | _ => out

/-- `InteropBridge._send_route_via_hub`.  `net host envelope` models
`_post_envelope`; its `.error` is the `URLError`/`JSONDecodeError` kind,
which this method does not catch. -/
def send_route_via_hub (cfg : BridgeConfig) (hmacHex : String → String)
    (sv2 : String → Option String)
    (net : String → Envelope → Except String Json) (gen : Gen)
    (st : BridgeState) (target_profile : String) (envelope : Envelope)
    (payload_log : Json) : Except PyErr Json × BridgeState :=
  match routing_hub_profile cfg with
  | none =>
      (.error (.runtime "Routing hub not configured for this profile"), st)
  | some hub_profile =>
      if hub_profile == cfg.profile_name then
        (.error (.runtime "Routing hub not configured for this profile"), st)
      else
        match (configured_targets cfg).find?
            (fun kv => kv.1 == hub_profile) with
        | none =>
            (.error (.runtime
              ("Hub profile is not configured as target: " ++ hub_profile)),
             st)
        | some hub_target =>
            let relay_envelope :=
              build_envelope cfg hmacHex sv2 gen.nonce2 gen.now hub_profile
                "route_envelope" (Json.obj [("envelope", envelopeToJson envelope)])
            match net hub_target.2.host relay_envelope with
            | .error exc => (.error (.urlError exc), st)
            | .ok response_payload =>
                let st1 :=
                  record_message st "outbox" cfg.profile_name target_profile
                    envelope.task_type payload_log envelope.nonce
                    ("sent:routed:" ++ hub_profile) gen.now
                (.ok (Json.obj
                  [("sent", .bool true), ("target", .str target_profile),
                   ("routed_via", .str hub_profile),
                   ("response", response_payload)]), st1)

/-- `InteropBridge.send_task`.  Transport errors on the direct POST are
caught; on the `auto` route (and a non-hub target) a hub fallback is
tried, whose `RuntimeError`s are swallowed but whose transport errors
propagate uncaught, skipping the `failed:` record. -/
def send_task (cfg : BridgeConfig) (hmacHex : String → String)
    (sv2 : String → Option String)
    (net : String → Envelope → Except String Json) (gen : Gen)
    (st : BridgeState) (target_profile task_type : String) (payload : Json)
    (route_via : String := "auto") : Except PyErr Json × BridgeState :=
  match (configured_targets cfg).find? (fun kv => kv.1 == target_profile) with
  | none =>
      (.error (.runtime
        ("Target not allowlisted/configured: " ++ target_profile)), st)
  | some target =>
      let envelope :=
        build_envelope cfg hmacHex sv2 gen.nonce1 gen.now target_profile
          task_type payload
      let payload_log := payload_for_log payload none
      if route_via == "hub" then
        send_route_via_hub cfg hmacHex sv2 net gen st target_profile envelope
          payload_log
      else
        match net target.2.host envelope with
        | .ok response_payload =>
            let payload_log2 :=
              payload_for_log payload
                (if response_payload.isObj then some response_payload else none)
            let st1 :=
              record_message st "outbox" cfg.profile_name target_profile
                task_type payload_log2 envelope.nonce "sent" gen.now
            (.ok (Json.obj
              [("sent", .bool true), ("target", .str target_profile),
               ("response", response_payload)]), st1)
        | .error exc =>
            let fail := fun (s : BridgeState) =>
              (Except.error (PyErr.runtime
                 ("Failed to send interop message: " ++ exc)),
               record_message s "outbox" cfg.profile_name target_profile
                 task_type payload envelope.nonce ("failed:" ++ exc) gen.now)
            if route_via == "auto" &&
                target_profile != ((routing_hub_profile cfg).getD "") then
              match send_route_via_hub cfg hmacHex sv2 net gen st
                  target_profile envelope payload_log with
              | (.ok r, st1) => (.ok r, st1)
              | (.error (.urlError e2), st1) => (.error (.urlError e2), st1)
              | (.error (.runtime _), st1) => fail st1
            else
              fail st

/-- `InteropBridge._last_outbox_timestamp`: the `created_at` of the
newest (`ORDER BY id DESC LIMIT 1`) outbox row for the target and task
type whose status is exactly `sent`. -/
def last_outbox_timestamp (st : BridgeState) (target task_type : String) :
    Option Int :=
  ((st.messages.filter
      (fun m => m.direction == "outbox" && m.target_node == target &&
        m.task_type == task_type && m.status == "sent")).getLast?).map
    (·.created_at)

/-- The fixed check-in payload built by `send_daily_skills_checkins`
(with `manifest` standing for `local_skills_manifest()`, which reads an
external YAML file). -/
def checkin_payload (manifest : Json) (now : Int) : Json :=
  Json.obj
    [("kind", .str "daily_skills_checkin"),
     ("question", .str "Hey, do you have any cool new skills today?"),
     ("requested_at", .int now), ("skills_manifest", manifest)]

/-- The loop body of `send_daily_skills_checkins` over the remaining
target profiles; `supply` feeds each attempted `send_task` its fresh
nonces.  A propagated transport error (uncaught by the loop's
`except RuntimeError`) aborts the remaining peers. -/
def daily_checkin_loop (cfg : BridgeConfig) (hmacHex : String → String)
    (sv2 : String → Option String)
    (net : String → Envelope → Except String Json) (manifest : Json)
    (now : Int) (interval_seconds : Int) :
    List String → List Gen → BridgeState →
    Except PyErr (List Json) × BridgeState
  | [], _, st => (.ok [], st)
  | target_profile :: rest, supply, st =>
      let skip :=
        match last_outbox_timestamp st target_profile "skills_checkin" with
        | none => false
        | some t => decide (now - t < interval_seconds)
      if skip then
        daily_checkin_loop cfg hmacHex sv2 net manifest now interval_seconds
          rest supply st
      else
        let gen := supply.headD {}
        match send_task cfg hmacHex sv2 net gen st target_profile
            "skills_checkin" (checkin_payload manifest now) "auto" with
        | (.ok result, st1) =>
            let entry := Json.obj
              [("target", .str target_profile), ("ok", .bool true),
               ("result", result)]
            let out := daily_checkin_loop cfg hmacHex sv2 net manifest now
              interval_seconds rest supply.tail st1
            (out.1.map (fun results => entry :: results), out.2)
        | (.error (.runtime msg), st1) =>
            let entry := Json.obj
              [("target", .str target_profile), ("ok", .bool false),
               ("error", .str msg)]
            let out := daily_checkin_loop cfg hmacHex sv2 net manifest now
              interval_seconds rest supply.tail st1
            (out.1.map (fun results => entry :: results), out.2)
        | (.error (.urlError e), st1) => (.error (.urlError e), st1)

/-- `InteropBridge.send_daily_skills_checkins` (default
`interval_seconds = 86400`). -/
def send_daily_skills_checkins (cfg : BridgeConfig)
    (hmacHex : String → String) (sv2 : String → Option String)
    (net : String → Envelope → Except String Json) (manifest : Json)
    (now : Int) (supply : List Gen) (st : BridgeState)
    (interval_seconds : Int := 86400) :
    Except PyErr (List Json) × BridgeState :=
  daily_checkin_loop cfg hmacHex sv2 net manifest now interval_seconds
    ((configured_targets cfg).map (·.1)) supply st

/-- `InteropBridge.forward_relay_envelope`: hub-side forwarding.  The
inner envelope is re-validated with `verify_replay=False`, so the hub
never burns its nonce. -/
def forward_relay_envelope (cfg : BridgeConfig) (hmacHex : String → String)
    (ed : String → String → String → Bool)
    (net : String → Envelope → Except String Json) (now : Int)
    (st : BridgeState) (relayer_source : String) (inner : Envelope) :
    Except PyErr Json × BridgeState :=
  let inner_source := pyStrip inner.source
  if inner_source != relayer_source then
    (.error (.runtime "Relay envelope source mismatch"), st)
  else
    let target_profile := pyStrip inner.target
    match (configured_targets cfg).find? (fun kv => kv.1 == target_profile) with
    | none =>
        (.error (.runtime ("Relay target not configured: " ++ target_profile)),
         st)
    | some target =>
        match validate_envelope cfg hmacHex ed now (some target_profile) false
            st inner with
        | (.error err, st1) => (.error err, st1)
        | (.ok validated, st1) =>
            match net target.2.host inner with
            | .error exc => (.error (.urlError exc), st1)
            | .ok response_payload =>
                let st2 :=
                  record_message st1 "relay" validated.source validated.target
                    validated.task_type validated.payload validated.nonce
                    ("forwarded_by:" ++ cfg.profile_name) now
                (.ok (Json.obj
                  [("forwarded", .bool true), ("target", .str target_profile),
                   ("response", response_payload)]), st2)

/-! ## Policy engine (`core/policy.py`) -/

inductive PolicyDecision where
  | allow
  | require_approval
  | deny
deriving DecidableEq

structure PolicyResult where
  decision : PolicyDecision
  reason : String
deriving DecidableEq

/-- `PolicyEngine.check`.  `allowed` is the profile's
`allowed_tool_tiers` list ( the `ToolTier` constructor validates its
members, and `ToolTier` is a `str` enum, so comparing against the
literal tier strings is the Python comparison). -/
def policy_check (allowed : List String) (tool_name tier : String) :
    PolicyResult :=
  if tier == "tier0" then
    if allowed.contains "tier0" then
      ⟨.allow, tool_name ++ " is Tier 0"⟩
    else
      ⟨.deny, "Tier 0 is not permitted for this profile"⟩
  else if tier == "tier1" then
    if allowed.contains "tier1" then
      ⟨.require_approval, tool_name ++ " requires human approval (Tier 1)"⟩
    else
      ⟨.deny, "Tier 1 is not permitted for this profile"⟩
  else if tier == "tier2" then
    if allowed.contains "tier2" then
      ⟨.require_approval,
        tool_name ++ " requires Jason Core approval (Tier 2)"⟩
    else
      ⟨.deny, "Tier 2 is restricted to Jason Core"⟩
  else
    ⟨.deny, "Unknown tool tier"⟩

/-- The decision column of the spec's policy table (section 4.3),
written from the spec's words for comparison with `policy_check`. -/
def spec_policy_decision (allowed : List String) (tier : String) :
    PolicyDecision :=
  if tier == "tier0" then
    if allowed.contains "tier0" then .allow else .deny
  else if tier == "tier1" then
    if allowed.contains "tier1" then .require_approval else .deny
  else if tier == "tier2" then
    if allowed.contains "tier2" then .require_approval else .deny
  else .deny

/-! ## Approval queue (`core/approval/engine.py`) -/

/-- One `approval_queue` row.  `execution_status` has SQL default
`not_executed`; `reviewed_at`/`executed_at` are nullable timestamps. -/
structure ApprovalRecord where
  id : Nat
  profile_name : String := ""
  tool_name : String := ""
  tier : String := ""
  payload : Json := .obj []
  status : String := "pending"
  reviewed_at : Option Int := none
  execution_status : String := "not_executed"
  executed_at : Option Int := none
  execution_result : Option Json := none

/-- `ApprovalEngine.get`: `SELECT ... WHERE id = ?` (the primary key
makes the first match the only one). -/
def approval_get (q : List ApprovalRecord) (approval_id : Nat) :
    Option ApprovalRecord :=
  q.find? (fun r => r.id == approval_id)

/-- `ApprovalEngine.resolve`: set `status`/`reviewed_at` on rows with
the given id that are still `pending`; report whether any row changed
(`cursor.rowcount > 0`). -/
def approval_resolve (q : List ApprovalRecord) (approval_id : Nat)
    (approve : Bool) (reviewed_at : Int) : Bool × List ApprovalRecord :=
  let status := if approve then "approved" else "rejected"
  (q.any (fun r => r.id == approval_id && r.status == "pending"),
   q.map (fun r =>
     if r.id == approval_id && r.status == "pending" then
       { r with status := status, reviewed_at := some reviewed_at }
     else r))

/-- `ApprovalEngine.mark_executed`: set the execution lifecycle fields
on rows with the given id that are `approved` and not yet `executed`;
report whether any row changed. -/
def approval_mark_executed (q : List ApprovalRecord) (approval_id : Nat)
    (result : Json) (executed_at : Int) : Bool × List ApprovalRecord :=
  (q.any (fun r => r.id == approval_id && r.status == "approved" &&
     r.execution_status != "executed"),
   q.map (fun r =>
     if r.id == approval_id && r.status == "approved" &&
         r.execution_status != "executed" then
       { r with
         execution_status := "executed"
         executed_at := some executed_at
         execution_result := some result }
     else r))

/-! ## Tool registry (`core/tools/registry.py`) -/

structure ToolExecutionResult where
  ok : Bool
  output : Json

/-- What one `ToolRegistry.execute_approved` call produced: the returned
result, the approval queue afterwards, the tool invocations it performed
(`tool.execute` calls, i.e. the side effects), and the episodic event
types it recorded. -/
structure ExecOutcome where
  result : ToolExecutionResult
  queue : List ApprovalRecord
  calls : List (String × Json)
  events : List String

/-- `ToolRegistry.execute_approved`; `tools` is the registry's
name-to-tool mapping, each tool modelled by its `execute` function. -/
def execute_approved (tools : List (String × (Json → ToolExecutionResult)))
    (q : List ApprovalRecord) (approval_id : Nat) (executed_at : Int) :
    ExecOutcome :=
  match approval_get q approval_id with
  | none =>
      ⟨⟨false, Json.obj [("error", .str "Approval not found")]⟩, q, [], []⟩
  | some approval =>
      if approval.status != "approved" then
        ⟨⟨false, Json.obj [("error", .str
            ("Approval " ++ toString approval_id ++ " is not approved"))]⟩,
         q, [], []⟩
      else if approval.execution_status == "executed" then
        let stored :=
          match approval.execution_result with
          | some j => if j.isTruthy then j else Json.obj []
          | none => Json.obj []
        ⟨⟨true, Json.obj
            [("already_executed", .bool true),
             ("approval_id", .int approval_id),
             ("execution_result", stored)]⟩, q, [], []⟩
      else
        match tools.find? (fun kv => kv.1 == approval.tool_name) with
        | none =>
            ⟨⟨false, Json.obj [("error", .str
                ("Unknown tool: " ++ approval.tool_name))]⟩, q, [], []⟩
        | some tool =>
            let result := tool.2 approval.payload
            let marked :=
              approval_mark_executed q approval_id
                (Json.obj [("ok", .bool result.ok), ("output", result.output)])
                executed_at
            ⟨result, marked.2, [(approval.tool_name, approval.payload)],
             ["tool_executed_after_approval"]⟩

/-! ## Auxiliary definitions for the theorems and their witnesses -/

/-- The `mark_executed` update function applied to the queue rows,
named so the C7 proof can reason about `find?` through it. -/
def mark_executed_row (approval_id : Nat) (result : Json)
    (executed_at : Int) (r : ApprovalRecord) : ApprovalRecord :=
  if r.id == approval_id && r.status == "approved" &&
      r.execution_status != "executed" then
    { r with
      execution_status := "executed"
      executed_at := some executed_at
      execution_result := some result }
  else r

def toolC7 : String × (Json → ToolExecutionResult) :=
  ("echo", fun p => ⟨true, p⟩)

def recC7 : ApprovalRecord :=
  { id := 1, tool_name := "echo", status := "approved",
    payload := Json.str "hi" }

def cfgC1 : BridgeConfig := { profile_name := "scarlet" }

def envC1 : Envelope :=
  { source := "jason", target := "scarlet", task_type := "ping",
    payload := Json.obj [], nonce := "n1", timestamp := 1000,
    signature := "h" }

def stC1 : BridgeState :=
  { nonces := [⟨"n1", "jason", "scarlet"⟩], messages := [] }

/-- Whether a receive/validate outcome is an acceptance. -/
def accepted_ok (r : Except PyErr Accepted × BridgeState) : Bool :=
  match r.1 with
  | .ok _ => true
  | .error _ => false

/-- The spec's three-mode identity table (section 4.1), written from
the spec's words: acceptance as a function of the mode, of whether a v2
signature is present, and of whether it is valid. -/
def spec_identity_table (mode : String) (present valid : Bool) : Bool :=
  if mode == "compat" then true
  else if mode == "provenance" then !(present && !valid)
  else if mode == "strict" then present && valid
  else true

def envC3 : Envelope :=
  { source := "jason", target := "scarlet", task_type := "ping",
    payload := Json.obj [], nonce := "n2", timestamp := 1000,
    signature := "h" }

def nodeJason : NodeSpec := { profile := some "jason", host := "hub.local" }

def nodeKiera : NodeSpec :=
  { profile := some "kiera", host := "kiera.local" }

/-- A scarlet-profile bridge that knows the hub `jason` and the peer
`kiera` (scenario S1's directory). -/
def cfgS : BridgeConfig :=
  { profile_name := "scarlet",
    nodes := [("jason", nodeJason), ("kiera", nodeKiera)] }

/-- A network on which every POST fails with a transport error. -/
def netDown : String → Envelope → Except String Json :=
  fun _ _ => .error "down"

def genS : Gen := { nonce1 := "na", nonce2 := "nb", now := 1000 }

def stEmpty : BridgeState := { nonces := [], messages := [] }

/-- The due test of `send_daily_skills_checkins`: a check-in is due for
a peer iff its most recent outbox `skills_checkin` record with status
exactly `sent` is absent or at least `interval_seconds` old. -/
def checkin_due (st : BridgeState) (now interval_seconds : Int)
    (target : String) : Bool :=
  match last_outbox_timestamp st target "skills_checkin" with
  | none => true
  | some t => !(decide (now - t < interval_seconds))

/-- A network on which only the hub host is reachable. -/
def netHubOnly : String → Envelope → Except String Json :=
  fun host _ => if host == "hub.local" then .ok Json.null else .error "down"

def genW2 : Gen := { nonce1 := "nc", nonce2 := "nd", now := 4600 }

def resW : List Json :=
  match (send_daily_skills_checkins cfgS (fun _ => "h") (fun _ => none)
      (fun _ _ => .ok Json.null) (Json.arr []) 1000 [genS, genS] stEmpty
      86400).1 with
  | .ok r => r
  | .error _ => []

/-! ## General helper lemmas -/

lemma list_map_self {α : Type} {l : List α} {f : α → α}
    (h : ∀ a ∈ l, f a = a) : l.map f = l := by
  induction l with
  | nil => rfl
  | cons x xs ih =>
      simp only [List.map_cons, h x (List.mem_cons_self x xs)]
      rw [ih (fun a ha => h a (List.mem_cons_of_mem x ha))]

lemma foldl_inv {α β : Type} (P : β → Prop) (f : β → α → β)
    (hstep : ∀ b a, P b → P (f b a)) :
    ∀ (l : List α) (init : β), P init → P (l.foldl f init) := by
  intro l
  induction l with
  | nil => intro init h; exact h
  | cons x xs ih =>
      intro init h
      rw [List.foldl_cons]
      exact ih (f init x) (hstep init x h)

lemma mem_dictInsert {α : Type} {l : List (String × α)} {k : String} {v : α}
    {p : String × α} (hp : p ∈ dictInsert l k v) : p ∈ l ∨ p.1 = k := by
  unfold dictInsert at hp
  by_cases hmem : l.any (fun kv => kv.1 == k) = true
  · rw [if_pos hmem] at hp
    rcases List.mem_map.mp hp with ⟨q, hq, hfq⟩
    by_cases hqk : (q.1 == k) = true
    · right
      rw [if_pos hqk] at hfq
      rw [← hfq]
    · left
      rw [if_neg hqk] at hfq
      rw [← hfq]
      exact hq
  · rw [if_neg hmem] at hp
    rcases List.mem_append.mp hp with h | h
    · left; exact h
    · right
      rw [List.mem_singleton.mp h]

lemma keys_dictInsert {α : Type} (l : List (String × α)) (k : String)
    (v : α) :
    (dictInsert l k v).map (·.1) = l.map (·.1) ∨
      ((dictInsert l k v).map (·.1) = l.map (·.1) ++ [k] ∧
        k ∉ l.map (·.1)) := by
  unfold dictInsert
  by_cases hmem : l.any (fun kv => kv.1 == k) = true
  · left
    rw [if_pos hmem, List.map_map]
    apply List.map_congr_left
    intro p _
    by_cases hpk : (p.1 == k) = true
    · simp only [Function.comp, if_pos hpk]
      exact (eq_of_beq hpk).symm
    · simp only [Function.comp, if_neg hpk]
  · right
    rw [if_neg hmem]
    constructor
    · simp
    · intro hk
      rcases List.mem_map.mp hk with ⟨p, hpl, hpk⟩
      have : (p.1 == k) = true := beq_iff_eq.mpr hpk
      exact hmem (List.any_eq_true.mpr ⟨p, hpl, this⟩)

lemma nodup_keys_dictInsert {α : Type} {l : List (String × α)} {k : String}
    {v : α} (h : (l.map (·.1)).Nodup) :
    ((dictInsert l k v).map (·.1)).Nodup := by
  rcases keys_dictInsert l k v with heq | ⟨heq, hnk⟩
  · rw [heq]; exact h
  · rw [heq]
    simpa using List.Nodup.append h (List.nodup_singleton k)
      (by simpa using hnk)

/-! ## Configured-targets lemmas -/

/-- No entry of `_configured_targets` is keyed by the bridge's own
profile name: the construction skips any node whose profile equals it. -/
lemma configured_targets_ne_self (cfg : BridgeConfig) :
    ∀ kv ∈ configured_targets cfg, kv.1 ≠ cfg.profile_name := by
  unfold configured_targets
  apply foldl_inv (fun acc : List (String × TargetInfo) =>
    ∀ kv ∈ acc, kv.1 ≠ cfg.profile_name)
  · intro out node hout kv hkv
    dsimp only at hkv
    by_cases hskip :
        (pyStrip (node.2.profile.getD node.1) == "" ||
          pyStrip node.2.host == "" ||
          pyEndsWith (pyStrip node.2.host) ".TBD" ||
          pyStrip (node.2.profile.getD node.1) == cfg.profile_name) = true
    · rw [if_pos hskip] at hkv
      exact hout kv hkv
    · rw [if_neg hskip] at hkv
      rcases mem_dictInsert hkv with hin | hkey
      · exact hout kv hin
      · rw [hkey]
        intro hcontra
        apply hskip
        simp only [Bool.or_eq_true]
        right
        exact beq_iff_eq.mpr hcontra
  · intro kv hkv
    exact absurd hkv (List.not_mem_nil kv)

/-- The configured-targets keys are duplicate-free (dict keys). -/
lemma configured_targets_keys_nodup (cfg : BridgeConfig) :
    ((configured_targets cfg).map (·.1)).Nodup := by
  unfold configured_targets
  apply foldl_inv (fun acc : List (String × TargetInfo) =>
    (acc.map (·.1)).Nodup)
  · intro out node hout
    dsimp only
    by_cases hskip :
        (pyStrip (node.2.profile.getD node.1) == "" ||
          pyStrip node.2.host == "" ||
          pyEndsWith (pyStrip node.2.host) ".TBD" ||
          pyStrip (node.2.profile.getD node.1) == cfg.profile_name) = true
    · rw [if_pos hskip]; exact hout
    · rw [if_neg hskip]
      exact nodup_keys_dictInsert hout
  · exact List.nodup_nil

/-- Looking up the bridge's own profile among the configured targets
always fails, whatever the node directory lists. -/
lemma configured_targets_self_lookup (cfg : BridgeConfig) :
    (configured_targets cfg).find?
      (fun kv => kv.1 == cfg.profile_name) = none := by
  apply List.find?_eq_none.mpr
  intro kv hkv
  simp only [beq_iff_eq]
  exact configured_targets_ne_self cfg kv hkv

/-! ## Claim theorems -/

/-- C10: for every route value, network behavior and store state,
`send_task` aimed at the bridge's own profile fails the allowlist lookup
and raises `Target not allowlisted/configured` with the store untouched
(the result does not depend on `net` or `gen`, so no envelope is posted
and no record is written) — even when the node directory lists that
profile with a valid host, since `_configured_targets` always excludes
the local profile. -/
theorem claim_C10_send_to_self_rejected (cfg : BridgeConfig)
    (hmacHex : String → String) (sv2 : String → Option String)
    (net : String → Envelope → Except String Json) (gen : Gen)
    (st : BridgeState) (task_type : String) (payload : Json)
    (route_via : String) :
    send_task cfg hmacHex sv2 net gen st cfg.profile_name task_type payload
        route_via =
      (.error (.runtime
        ("Target not allowlisted/configured: " ++ cfg.profile_name)), st) := by
  unfold send_task
  rw [configured_targets_self_lookup cfg]

/-- C5: the stateless policy check maps each (tool, tier) pair to the
decision in the spec's tier table, and any tier outside tier0/1/2 is
denied with the unknown-tier reason. -/
theorem claim_C5_policy_table (allowed : List String)
    (tool_name tier : String) :
    (policy_check allowed tool_name tier).decision =
        spec_policy_decision allowed tier ∧
      (tier ≠ "tier0" → tier ≠ "tier1" → tier ≠ "tier2" →
        policy_check allowed tool_name tier =
          ⟨.deny, "Unknown tool tier"⟩) := by
  constructor
  · unfold policy_check spec_policy_decision
    split_ifs <;> rfl
  · intro h0 h1 h2
    unfold policy_check
    rw [if_neg (by simpa using h0), if_neg (by simpa using h1),
      if_neg (by simpa using h2)]

/-- Witness for C5: an out-of-range tier at a concrete input. -/
theorem claim_C5_policy_table_witness :
    policy_check ["tier0"] "math_tool" "tier9" =
      ⟨.deny, "Unknown tool tier"⟩ :=
  (claim_C5_policy_table ["tier0"] "math_tool" "tier9").2
    (by decide) (by decide) (by decide)

/-- C6: the approval lifecycle.  `resolve` on a queue holding no pending
row under the id reports false and leaves every row unchanged; row for
row, a status change can only be pending→approved or pending→rejected,
and a second `resolve` under the same id always reports false (so the
transition happens at most once); `mark_executed` on a queue holding no
approved-and-unexecuted row under the id reports false and changes
nothing; row for row, an execution-status change can only set
`executed`, only from a not-yet-executed row whose status is `approved`
(and leaves `status` alone); and a second `mark_executed` under the same
id always reports false. -/
theorem claim_C6_approval_transitions (q : List ApprovalRecord)
    (approval_id : Nat) (approve approve2 : Bool)
    (reviewed_at reviewed_at2 : Int) (result result2 : Json)
    (executed_at executed_at2 : Int) :
    ((∀ r ∈ q, r.id = approval_id → r.status ≠ "pending") →
      approval_resolve q approval_id approve reviewed_at = (false, q)) ∧
    List.Forall₂ (fun r r2 => r2.status ≠ r.status →
        r.status = "pending" ∧
          (r2.status = "approved" ∨ r2.status = "rejected") ∧
          r2.id = r.id ∧ r2.execution_status = r.execution_status)
      q (approval_resolve q approval_id approve reviewed_at).2 ∧
    (approval_resolve (approval_resolve q approval_id approve reviewed_at).2
        approval_id approve2 reviewed_at2).1 = false ∧
    ((∀ r ∈ q, r.id = approval_id →
        ¬(r.status = "approved" ∧ r.execution_status ≠ "executed")) →
      approval_mark_executed q approval_id result executed_at = (false, q)) ∧
    List.Forall₂ (fun r r2 => r2.execution_status ≠ r.execution_status →
        r.status = "approved" ∧ r.execution_status ≠ "executed" ∧
          r2.execution_status = "executed" ∧ r2.status = r.status ∧
          r2.id = r.id)
      q (approval_mark_executed q approval_id result executed_at).2 ∧
    (approval_mark_executed
        (approval_mark_executed q approval_id result executed_at).2
        approval_id result2 executed_at2).1 = false := by
  refine ⟨?_, ?_, ?_, ?_, ?_, ?_⟩
  · intro h
    unfold approval_resolve
    rw [Prod.ext_iff]
    constructor
    · apply List.any_eq_false.mpr
      intro r hr
      simp only [Bool.and_eq_true, beq_iff_eq, not_and]
      intro hid
      exact h r hr hid
    · apply list_map_self
      intro r hr
      rw [if_neg]
      simp only [Bool.and_eq_true, beq_iff_eq, not_and]
      intro hid
      exact fun hp => h r hr hid hp
  · unfold approval_resolve
    rw [List.forall₂_map_right_iff]
    apply List.forall₂_same.mpr
    intro r _
    by_cases hc : (r.id == approval_id && r.status == "pending") = true
    · rw [if_pos hc]
      intro _
      simp only [Bool.and_eq_true, beq_iff_eq] at hc
      refine ⟨hc.2, ?_, rfl, rfl⟩
      cases approve
      · right; rfl
      · left; rfl
    · rw [if_neg hc]
      intro hne
      exact absurd rfl hne
  · unfold approval_resolve
    rw [List.any_map]
    apply List.any_eq_false.mpr
    intro r _
    by_cases hc : (r.id == approval_id && r.status == "pending") = true
    · simp only [Function.comp, if_pos hc]
      cases approve <;> simp
    · simp only [Function.comp, if_neg hc]
      exact fun hcontra => hc hcontra
  · intro h
    unfold approval_mark_executed
    rw [Prod.ext_iff]
    constructor
    · apply List.any_eq_false.mpr
      intro r hr
      simp only [Bool.and_eq_true, beq_iff_eq, bne_iff_ne, not_and]
      intro hid hs
      exact h r hr hid.1 ⟨hid.2, hs⟩
    · apply list_map_self
      intro r hr
      rw [if_neg]
      simp only [Bool.and_eq_true, beq_iff_eq, bne_iff_ne, not_and]
      intro hid hs
      exact h r hr hid.1 ⟨hid.2, hs⟩
  · unfold approval_mark_executed
    rw [List.forall₂_map_right_iff]
    apply List.forall₂_same.mpr
    intro r _
    by_cases hc : (r.id == approval_id && r.status == "approved" &&
        r.execution_status != "executed") = true
    · rw [if_pos hc]
      intro _
      simp only [Bool.and_eq_true, beq_iff_eq, bne_iff_ne] at hc
      exact ⟨hc.1.2, hc.2, rfl, rfl, rfl⟩
    · rw [if_neg hc]
      intro hne
      exact absurd rfl hne
  · unfold approval_mark_executed
    rw [List.any_map]
    apply List.any_eq_false.mpr
    intro r _
    by_cases hc : (r.id == approval_id && r.status == "approved" &&
        r.execution_status != "executed") = true
    · simp only [Function.comp, if_pos hc]
      simp
    · simp only [Function.comp, if_neg hc]
      exact fun hcontra => hc hcontra

/-- Witness for C6 at a concrete queue: an already-approved row cannot
be re-resolved and an already-executed row cannot be re-executed. -/
theorem claim_C6_approval_transitions_witness :
    approval_resolve
        [{ id := 1, status := "approved" : ApprovalRecord }] 1 true 50 =
      (false, [{ id := 1, status := "approved" : ApprovalRecord }]) ∧
    approval_mark_executed
        [{ id := 2, status := "pending" : ApprovalRecord }] 2 Json.null 60 =
      (false, [{ id := 2, status := "pending" : ApprovalRecord }]) :=
  ⟨(claim_C6_approval_transitions
      [{ id := 1, status := "approved" }] 1 true true 50 50 Json.null
      Json.null 0 0).1
    (by intro r hr; rw [List.mem_singleton.mp hr]; intro _; decide),
   (claim_C6_approval_transitions
      [{ id := 2, status := "pending" }] 2 true true 50 50 Json.null
      Json.null 60 60).2.2.2.1
    (by intro r hr; rw [List.mem_singleton.mp hr]; intro _ hcontra;
        exact absurd hcontra.1 (by decide))⟩

lemma approval_mark_executed_snd (q : List ApprovalRecord)
    (approval_id : Nat) (result : Json) (executed_at : Int) :
    (approval_mark_executed q approval_id result executed_at).2 =
      q.map (mark_executed_row approval_id result executed_at) := rfl

lemma mark_executed_row_id (approval_id : Nat) (result : Json)
    (executed_at : Int) (r : ApprovalRecord) :
    (mark_executed_row approval_id result executed_at r).id = r.id := by
  unfold mark_executed_row
  split <;> rfl

lemma approval_get_mark_executed (q : List ApprovalRecord)
    (approval_id : Nat) (result : Json) (executed_at : Int) :
    approval_get (approval_mark_executed q approval_id result executed_at).2
        approval_id =
      (approval_get q approval_id).map
        (mark_executed_row approval_id result executed_at) := by
  have hfun : ((fun rr : ApprovalRecord => rr.id == approval_id) ∘
      mark_executed_row approval_id result executed_at) =
        (fun rr : ApprovalRecord => rr.id == approval_id) := by
    funext rr
    simp only [Function.comp]
    rw [mark_executed_row_id]
  unfold approval_get
  rw [approval_mark_executed_snd, List.find?_map, hfun]

/-- C7: for an approved, not-yet-executed approval whose tool is
registered, the first `execute_approved` call invokes the tool exactly
once (returning its result), and a second call performs no tool
invocation, leaves the queue unchanged, and returns ok with
`already_executed: true` and the stored execution result. -/
theorem claim_C7_execute_approved_idempotent
    (tools : List (String × (Json → ToolExecutionResult)))
    (q : List ApprovalRecord) (approval_id : Nat)
    (executed_at executed_at2 : Int) (r : ApprovalRecord)
    (tool : String × (Json → ToolExecutionResult))
    (hget : approval_get q approval_id = some r)
    (hstatus : r.status = "approved")
    (hexec : r.execution_status = "not_executed")
    (htool : tools.find? (fun kv => kv.1 == r.tool_name) = some tool) :
    (execute_approved tools q approval_id executed_at).calls =
        [(r.tool_name, r.payload)] ∧
      (execute_approved tools q approval_id executed_at).result =
        tool.2 r.payload ∧
      (execute_approved tools
          (execute_approved tools q approval_id executed_at).queue
          approval_id executed_at2).calls = [] ∧
      (execute_approved tools
          (execute_approved tools q approval_id executed_at).queue
          approval_id executed_at2).queue =
        (execute_approved tools q approval_id executed_at).queue ∧
      (execute_approved tools
          (execute_approved tools q approval_id executed_at).queue
          approval_id executed_at2).result =
        ⟨true, Json.obj
          [("already_executed", .bool true),
           ("approval_id", .int approval_id),
           ("execution_result", Json.obj
             [("ok", .bool (tool.2 r.payload).ok),
              ("output", (tool.2 r.payload).output)])]⟩ := by
  have hfirst : execute_approved tools q approval_id executed_at =
      ⟨tool.2 r.payload,
        (approval_mark_executed q approval_id
          (Json.obj [("ok", .bool (tool.2 r.payload).ok),
            ("output", (tool.2 r.payload).output)]) executed_at).2,
        [(r.tool_name, r.payload)], ["tool_executed_after_approval"]⟩ := by
    unfold execute_approved
    rw [hget]
    simp only [hstatus, hexec, htool]
    rfl
  have hget2 : q.find? (fun rr => rr.id == approval_id) = some r := hget
  have hid0 := List.find?_some hget2
  have hid : (r.id == approval_id) = true := hid0
  have hcond : (r.id == approval_id && r.status == "approved" &&
      r.execution_status != "executed") = true := by
    rw [hid, hstatus, hexec]
    rfl
  have hrowval : ∀ res : Json,
      mark_executed_row approval_id res executed_at r =
        { r with
          execution_status := "executed"
          executed_at := some executed_at
          execution_result := some res } := by
    intro res
    unfold mark_executed_row
    rw [if_pos hcond]
  have hrow : ∀ res : Json,
      approval_get (approval_mark_executed q approval_id res executed_at).2
          approval_id =
        some { r with
          execution_status := "executed"
          executed_at := some executed_at
          execution_result := some res } := by
    intro res
    rw [approval_get_mark_executed, hget]
    exact congrArg some (hrowval res)
  have hsecond : execute_approved tools
      (execute_approved tools q approval_id executed_at).queue
      approval_id executed_at2 =
      ⟨⟨true, Json.obj
          [("already_executed", .bool true),
           ("approval_id", .int approval_id),
           ("execution_result", Json.obj
             [("ok", .bool (tool.2 r.payload).ok),
              ("output", (tool.2 r.payload).output)])]⟩,
        (execute_approved tools q approval_id executed_at).queue,
        [], []⟩ := by
    rw [hfirst]
    unfold execute_approved
    rw [hrow (Json.obj [("ok", .bool (tool.2 r.payload).ok),
      ("output", (tool.2 r.payload).output)])]
    simp only [hstatus]
    rfl
  rw [hsecond, hfirst]
  exact ⟨rfl, rfl, rfl, rfl, rfl⟩

/-- Witness for C7 at a concrete registry and queue. -/
theorem claim_C7_execute_approved_idempotent_witness :
    (execute_approved [toolC7] [recC7] 1 10).calls =
        [(recC7.tool_name, recC7.payload)] ∧
      (execute_approved [toolC7] [recC7] 1 10).result =
        toolC7.2 recC7.payload ∧
      (execute_approved [toolC7] (execute_approved [toolC7] [recC7] 1 10).queue
          1 20).calls = [] ∧
      (execute_approved [toolC7] (execute_approved [toolC7] [recC7] 1 10).queue
          1 20).queue = (execute_approved [toolC7] [recC7] 1 10).queue ∧
      (execute_approved [toolC7] (execute_approved [toolC7] [recC7] 1 10).queue
          1 20).result =
        ⟨true, Json.obj
          [("already_executed", .bool true), ("approval_id", .int 1),
           ("execution_result", Json.obj
             [("ok", .bool (toolC7.2 recC7.payload).ok),
              ("output", (toolC7.2 recC7.payload).output)])]⟩ :=
  claim_C7_execute_approved_idempotent [toolC7] [recC7] 1 10 20 recC7 toolC7
    rfl rfl rfl rfl

/-! ## Validation-pipeline lemmas for C1 and C3 -/

/-- The identity-gate condition for strict mode is boolean-false when
the strict rejection does not apply. -/
lemma strict_gate_false (cfg : BridgeConfig)
    (ed : String → String → String → Bool) (e : Envelope)
    (h : ¬(identity_mode cfg = "strict" ∧ verify_v2 cfg ed e = false)) :
    (identity_mode cfg == "strict" && !verify_v2 cfg ed e) = false := by
  by_cases hv : verify_v2 cfg ed e = false
  · have hm : identity_mode cfg ≠ "strict" := fun hmm => h ⟨hmm, hv⟩
    simp [hm]
  · simp only [Bool.not_eq_false] at hv
    simp [hv]

/-- The identity-gate condition for provenance mode is boolean-false
when the provenance rejection does not apply. -/
lemma provenance_gate_false (cfg : BridgeConfig)
    (ed : String → String → String → Bool) (e : Envelope)
    (h : ¬(identity_mode cfg = "provenance" ∧ has_v2 e = true ∧
      verify_v2 cfg ed e = false)) :
    (identity_mode cfg == "provenance" && has_v2 e &&
      !verify_v2 cfg ed e) = false := by
  by_cases hh : has_v2 e = true
  · by_cases hv : verify_v2 cfg ed e = false
    · have hm : identity_mode cfg ≠ "provenance" := fun hmm => h ⟨hmm, hh, hv⟩
      simp [hm]
    · simp only [Bool.not_eq_false] at hv
      simp [hv]
  · simp only [Bool.not_eq_true] at hh
    simp [hh]

/-- After the target, skew, signature and identity checks pass,
`_validate_envelope` is the replay gate. -/
lemma validate_envelope_after_checks (cfg : BridgeConfig)
    (hmacHex : String → String) (ed : String → String → String → Bool)
    (now : Int) (verify_replay : Bool) (st : BridgeState) (e : Envelope)
    (htarget : e.target = cfg.profile_name)
    (hskew : (now - e.timestamp).natAbs ≤ 300)
    (hsig : hmacHex (canonical_payload e) = e.signature)
    (hstrict : ¬(identity_mode cfg = "strict" ∧ verify_v2 cfg ed e = false))
    (hprov : ¬(identity_mode cfg = "provenance" ∧ has_v2 e = true ∧
      verify_v2 cfg ed e = false)) :
    validate_envelope cfg hmacHex ed now (some cfg.profile_name)
        verify_replay st e =
      (if verify_replay then
        if is_replay st e.nonce then
          (.error (.runtime "Replay detected: nonce already seen"), st)
        else
          (.ok ⟨e.source, e.target, e.task_type, e.payload, e.nonce,
            verify_v2 cfg ed e⟩,
           record_nonce st e.nonce e.source e.target)
      else
        (.ok ⟨e.source, e.target, e.task_type, e.payload, e.nonce,
          verify_v2 cfg ed e⟩, st)) := by
  unfold validate_envelope
  have hexp : expected_or_profile cfg (some cfg.profile_name) =
      cfg.profile_name := by
    simp [expected_or_profile]
  have hbne : (e.target !=
      expected_or_profile cfg (some cfg.profile_name)) = false := by
    rw [hexp, htarget]
    exact bne_self_eq_false cfg.profile_name
  rw [hbne, if_neg Bool.false_ne_true]
  have hskew2 : ¬((now - e.timestamp).natAbs >
      MAX_CLOCK_SKEW_SECONDS.natAbs) := by
    have h300 : MAX_CLOCK_SKEW_SECONDS.natAbs = 300 := rfl
    rw [h300]
    exact Nat.not_lt.mpr hskew
  rw [if_neg hskew2]
  have hsig2 : (sign hmacHex e != e.signature) = false := by
    unfold sign
    rw [hsig]
    exact bne_self_eq_false e.signature
  rw [hsig2, if_neg Bool.false_ne_true]
  rw [strict_gate_false cfg ed e hstrict, if_neg Bool.false_ne_true]
  rw [provenance_gate_false cfg ed e hprov, if_neg Bool.false_ne_true]

/-- Any `receive_envelope` call either leaves the nonce table unchanged
or, when the nonce was fresh, appends exactly that nonce row. -/
lemma receive_envelope_nonces (cfg : BridgeConfig)
    (hmacHex : String → String) (ed : String → String → String → Bool)
    (now : Int) (st : BridgeState) (e : Envelope) :
    ((receive_envelope cfg hmacHex ed now st e).2).nonces = st.nonces ∨
      (is_replay st e.nonce = false ∧
        ((receive_envelope cfg hmacHex ed now st e).2).nonces =
          st.nonces ++ [⟨e.nonce, e.source, e.target⟩]) := by
  unfold receive_envelope validate_envelope
  split_ifs with h1 h2 h3 h4 h5 h6 h7 <;>
    first
      | (left; rfl)
      | (right; exact ⟨by simpa using h7, rfl⟩)

/-- C1: once a nonce is in the nonce table, a repeated
`receive_envelope` of an envelope carrying it — one that passes the
target/skew/HMAC/identity checks, as the first delivery did — raises
the `Replay detected` error and leaves the store exactly as it was: no
new inbox MessageRecord and no second nonce row.  Moreover every
`receive_envelope` call preserves duplicate-freedom of the nonce
column, the model of the nonce table's primary key (each nonce is
inserted at most once). -/
theorem claim_C1_replay_rejected (cfg : BridgeConfig)
    (hmacHex : String → String) (ed : String → String → String → Bool)
    (now : Int) (st : BridgeState) (e : Envelope)
    (htarget : e.target = cfg.profile_name)
    (hskew : (now - e.timestamp).natAbs ≤ 300)
    (hsig : hmacHex (canonical_payload e) = e.signature)
    (hstrict : ¬(identity_mode cfg = "strict" ∧ verify_v2 cfg ed e = false))
    (hprov : ¬(identity_mode cfg = "provenance" ∧ has_v2 e = true ∧
      verify_v2 cfg ed e = false))
    (hreplay : is_replay st e.nonce = true) :
    receive_envelope cfg hmacHex ed now st e =
        (.error (.runtime "Replay detected: nonce already seen"), st) ∧
      ∀ (st2 : BridgeState) (e2 : Envelope) (now2 : Int),
        (st2.nonces.map (·.nonce)).Nodup →
        (((receive_envelope cfg hmacHex ed now2 st2 e2).2).nonces.map
          (·.nonce)).Nodup := by
  constructor
  · unfold receive_envelope
    rw [validate_envelope_after_checks cfg hmacHex ed now true st e htarget
      hskew hsig hstrict hprov]
    rw [if_pos rfl, if_pos hreplay]
  · intro st2 e2 now2 hnodup
    rcases receive_envelope_nonces cfg hmacHex ed now2 st2 e2 with
      heq | ⟨hfresh, heq⟩
    · rw [heq]; exact hnodup
    · rw [heq, List.map_append]
      apply List.Nodup.append hnodup (List.nodup_singleton _)
      intro a ha hb
      rw [List.mem_singleton.mp hb] at ha
      rcases List.mem_map.mp ha with ⟨rec, hrec, hrn⟩
      have hbeq : (rec.nonce == e2.nonce) = true := beq_iff_eq.mpr hrn
      exact List.any_eq_false.mp hfresh rec hrec hbeq

/-- Witness for C1 at a concrete envelope whose nonce is already in the
nonce table. -/
theorem claim_C1_replay_rejected_witness :
    receive_envelope cfgC1 (fun _ => "h") (fun _ _ _ => false) 1000 stC1
        envC1 =
      (.error (.runtime "Replay detected: nonce already seen"), stC1) :=
  (claim_C1_replay_rejected cfgC1 (fun _ => "h") (fun _ _ _ => false) 1000
    stC1 envC1 rfl (by decide) rfl (by decide) (by decide) (by decide)).1

/-- A successful Ed25519 verification implies a v2 signature was
present (`_verify_v2` returns false on a blank `signature_v2`). -/
lemma verify_v2_imp_has_v2 (cfg : BridgeConfig)
    (ed : String → String → String → Bool) (e : Envelope)
    (h : verify_v2 cfg ed e = true) : has_v2 e = true := by
  unfold has_v2
  by_cases hs : pyStrip (e.signature_v2.getD "") = ""
  · exfalso
    unfold verify_v2 at h
    rw [hs] at h
    simp at h
  · simpa using hs

/-- `_identity_mode` only ever returns one of the three modes. -/
lemma identity_mode_mem (cfg : BridgeConfig) :
    identity_mode cfg = "compat" ∨ identity_mode cfg = "provenance" ∨
      identity_mode cfg = "strict" := by
  unfold identity_mode
  cases hf : cfg.identity_mode_file with
  | none => left; rfl
  | some content =>
      dsimp only
      by_cases h : (pyStrip content == "compat" ||
          pyStrip content == "provenance" ||
          pyStrip content == "strict") = true
      · rw [if_pos h]
        simp only [Bool.or_eq_true, beq_iff_eq] at h
        rcases h with (h | h) | h
        · left; exact h
        · right; left; exact h
        · right; right; exact h
      · rw [if_neg h]
        left; rfl

/-- After the target, skew and signature checks pass,
`_validate_envelope` is the identity gate followed by the replay
gate. -/
lemma validate_envelope_pre3 (cfg : BridgeConfig)
    (hmacHex : String → String) (ed : String → String → String → Bool)
    (now : Int) (verify_replay : Bool) (st : BridgeState) (e : Envelope)
    (htarget : e.target = cfg.profile_name)
    (hskew : (now - e.timestamp).natAbs ≤ 300)
    (hsig : hmacHex (canonical_payload e) = e.signature) :
    validate_envelope cfg hmacHex ed now (some cfg.profile_name)
        verify_replay st e =
      (if identity_mode cfg == "strict" && !verify_v2 cfg ed e then
        (.error (.runtime
          "Envelope identity signature invalid or missing (strict mode)"), st)
      else if identity_mode cfg == "provenance" && has_v2 e &&
          !verify_v2 cfg ed e then
        (.error (.runtime
          "Envelope identity signature invalid (provenance mode)"), st)
      else if verify_replay then
        if is_replay st e.nonce then
          (.error (.runtime "Replay detected: nonce already seen"), st)
        else
          (.ok ⟨e.source, e.target, e.task_type, e.payload, e.nonce,
            verify_v2 cfg ed e⟩,
           record_nonce st e.nonce e.source e.target)
      else
        (.ok ⟨e.source, e.target, e.task_type, e.payload, e.nonce,
          verify_v2 cfg ed e⟩, st)) := by
  unfold validate_envelope
  have hexp : expected_or_profile cfg (some cfg.profile_name) =
      cfg.profile_name := by
    simp [expected_or_profile]
  have hbne : (e.target !=
      expected_or_profile cfg (some cfg.profile_name)) = false := by
    rw [hexp, htarget]
    exact bne_self_eq_false cfg.profile_name
  rw [hbne, if_neg Bool.false_ne_true]
  have hskew2 : ¬((now - e.timestamp).natAbs >
      MAX_CLOCK_SKEW_SECONDS.natAbs) := by
    have h300 : MAX_CLOCK_SKEW_SECONDS.natAbs = 300 := rfl
    rw [h300]
    exact Nat.not_lt.mpr hskew
  rw [if_neg hskew2]
  have hsig2 : (sign hmacHex e != e.signature) = false := by
    unfold sign
    rw [hsig]
    exact bne_self_eq_false e.signature
  rw [hsig2, if_neg Bool.false_ne_true]

/-- C3: for an inbound envelope that passes the schema, target, skew
and HMAC checks and carries a fresh nonce, acceptance is exactly the
spec's three-mode identity table applied to the runtime mode, the
presence of a v2 signature, and its validity. -/
theorem claim_C3_identity_mode_table (cfg : BridgeConfig)
    (hmacHex : String → String) (ed : String → String → String → Bool)
    (now : Int) (st : BridgeState) (e : Envelope)
    (htarget : e.target = cfg.profile_name)
    (hskew : (now - e.timestamp).natAbs ≤ 300)
    (hsig : hmacHex (canonical_payload e) = e.signature)
    (hfresh : is_replay st e.nonce = false) :
    accepted_ok (receive_envelope cfg hmacHex ed now st e) =
      spec_identity_table (identity_mode cfg) (has_v2 e)
        (verify_v2 cfg ed e) := by
  unfold receive_envelope
  rw [validate_envelope_pre3 cfg hmacHex ed now true st e htarget hskew hsig]
  rcases identity_mode_mem cfg with hm | hm | hm <;> rw [hm] <;>
    by_cases hv : verify_v2 cfg ed e = true
  · simp [hv, hfresh, accepted_ok, spec_identity_table]
  · simp only [Bool.not_eq_true] at hv
    simp [hv, hfresh, accepted_ok, spec_identity_table]
  · simp [hv, hfresh, accepted_ok, spec_identity_table]
  · simp only [Bool.not_eq_true] at hv
    by_cases hh : has_v2 e = true
    · simp [hv, hh, accepted_ok, spec_identity_table]
    · simp only [Bool.not_eq_true] at hh
      simp [hv, hh, hfresh, accepted_ok, spec_identity_table]
  · have hh := verify_v2_imp_has_v2 cfg ed e hv
    simp [hv, hh, hfresh, accepted_ok, spec_identity_table]
  · simp only [Bool.not_eq_true] at hv
    simp [hv, accepted_ok, spec_identity_table]

/-- Witness for C3: a compat-mode bridge accepts a concrete envelope
with no identity signature. -/
theorem claim_C3_identity_mode_table_witness :
    accepted_ok (receive_envelope cfgC1 (fun _ => "h")
        (fun _ _ _ => false) 1000 { nonces := [], messages := [] } envC3) =
      spec_identity_table (identity_mode cfgC1) (has_v2 envC3)
        (verify_v2 cfgC1 (fun _ _ _ => false) envC3) :=
  claim_C3_identity_mode_table cfgC1 (fun _ => "h") (fun _ _ _ => false)
    1000 { nonces := [], messages := [] } envC3 rfl (by decide) rfl
    (by decide)

/-- The state returned by a `verify_replay=False` validation is always
the input state: the nonce is neither checked nor recorded. -/
lemma validate_envelope_no_replay_state (cfg : BridgeConfig)
    (hmacHex : String → String) (ed : String → String → String → Bool)
    (now : Int) (expected_target : Option String) (st : BridgeState)
    (e : Envelope) :
    (validate_envelope cfg hmacHex ed now expected_target false st e).2 =
      st := by
  unfold validate_envelope
  split_ifs <;> first | rfl | (exfalso; assumption)

/-- C8: `forward_relay_envelope` with a relayer/inner source mismatch
raises the `source mismatch` error with the store untouched, for every
network behavior (so before any network I/O and with no relay record);
and whatever happens, the hub's nonce table is never written by a
relay. -/
theorem claim_C8_relay_source_binding (cfg : BridgeConfig)
    (hmacHex : String → String) (ed : String → String → String → Bool)
    (net : String → Envelope → Except String Json) (now : Int)
    (st : BridgeState) (relayer_source : String) (inner : Envelope) :
    (pyStrip inner.source ≠ relayer_source →
      forward_relay_envelope cfg hmacHex ed net now st relayer_source
          inner =
        (.error (.runtime "Relay envelope source mismatch"), st)) ∧
      (forward_relay_envelope cfg hmacHex ed net now st relayer_source
          inner).2.nonces = st.nonces := by
  constructor
  · intro hne
    unfold forward_relay_envelope
    rw [if_pos (by simpa using hne)]
  · unfold forward_relay_envelope
    by_cases hsrc : (pyStrip inner.source != relayer_source) = true
    · rw [if_pos hsrc]
    · rw [if_neg hsrc]
      cases hfind : (configured_targets cfg).find?
          (fun kv => kv.1 == pyStrip inner.target) with
      | none => simp [hfind]
      | some target =>
          cases hval : validate_envelope cfg hmacHex ed now
              (some (pyStrip inner.target)) false st inner with
          | mk res st1 =>
              have hst1 : st1 = st := by
                have h2 := validate_envelope_no_replay_state cfg hmacHex ed
                  now (some (pyStrip inner.target)) st inner
                rw [hval] at h2
                exact h2
              cases res with
              | error err => simp [hfind, hval, hst1]
              | ok validated =>
                  cases hnet : net target.2.host inner with
                  | error exc => simp [hfind, hval, hnet, hst1]
                  | ok resp =>
                      simp [hfind, hval, hnet, hst1, record_message]

/-- Witness for C8: a concrete spoofed relay is rejected with the store
unchanged. -/
theorem claim_C8_relay_source_binding_witness :
    forward_relay_envelope cfgC1 (fun _ => "h") (fun _ _ _ => false)
        (fun _ _ => .ok Json.null) 1000
        { nonces := [], messages := [] } "scarlet" envC1 =
      (.error (.runtime "Relay envelope source mismatch"),
        { nonces := [], messages := [] }) :=
  (claim_C8_relay_source_binding cfgC1 (fun _ => "h") (fun _ _ _ => false)
    (fun _ _ => .ok Json.null) 1000 { nonces := [], messages := [] }
    "scarlet" envC1).1 (by decide)

/-! ## Send-path lemmas for C4 -/

/-- `_send_route_via_hub` either raises with the store untouched, or
returns success having appended exactly the one routed outbox record. -/
lemma send_route_via_hub_cases (cfg : BridgeConfig)
    (hmacHex : String → String) (sv2 : String → Option String)
    (net : String → Envelope → Except String Json) (gen : Gen)
    (st : BridgeState) (target_profile : String) (envelope : Envelope)
    (payload_log : Json) :
    (∃ err st1, send_route_via_hub cfg hmacHex sv2 net gen st
        target_profile envelope payload_log = (.error err, st1) ∧
      st1 = st) ∨
    (∃ hub resp, send_route_via_hub cfg hmacHex sv2 net gen st
        target_profile envelope payload_log =
      (.ok resp,
        record_message st "outbox" cfg.profile_name target_profile
          envelope.task_type payload_log envelope.nonce
          ("sent:routed:" ++ hub) gen.now)) := by
  unfold send_route_via_hub
  cases hrp : routing_hub_profile cfg with
  | none => left; exact ⟨_, _, rfl, rfl⟩
  | some hub_profile =>
      dsimp only
      by_cases hown : (hub_profile == cfg.profile_name) = true
      · rw [if_pos hown]
        left; exact ⟨_, _, rfl, rfl⟩
      · rw [if_neg hown]
        cases hfind : (configured_targets cfg).find?
            (fun kv => kv.1 == hub_profile) with
        | none => left; exact ⟨_, _, rfl, rfl⟩
        | some hub_target =>
            dsimp only
            cases hnet : net hub_target.2.host
                (build_envelope cfg hmacHex sv2 gen.nonce2 gen.now
                  hub_profile "route_envelope"
                  (Json.obj [("envelope", envelopeToJson envelope)])) with
            | error exc => left; exact ⟨_, _, rfl, rfl⟩
            | ok resp => right; exact ⟨hub_profile, _, rfl⟩

/-- C4 (amended): a `send_task` call on a configured target appends
exactly one outbox record — `sent` or `sent:routed:<hub>` on a
successful result, `failed:<reason>` when the raised error is the
wrapping RuntimeError — except that no record at all is appended when
the hub transmission itself raises: on the `hub` route any hub failure,
and on the fallback of the `auto` route a hub transport error, leave
the store untouched while the error propagates. -/
theorem claim_C4_amended_outbox_record (cfg : BridgeConfig)
    (hmacHex : String → String) (sv2 : String → Option String)
    (net : String → Envelope → Except String Json) (gen : Gen)
    (st : BridgeState) (target_profile task_type : String) (payload : Json)
    (route_via : String)
    (h : ((configured_targets cfg).find?
      (fun kv => kv.1 == target_profile)).isSome = true) :
    (∃ r, (send_task cfg hmacHex sv2 net gen st target_profile task_type
          payload route_via).2.messages = st.messages ++ [r] ∧
        r.direction = "outbox" ∧
        (((∃ resp, (send_task cfg hmacHex sv2 net gen st target_profile
              task_type payload route_via).1 = .ok resp) ∧
            (r.status = "sent" ∨ ∃ hub, r.status = "sent:routed:" ++ hub)) ∨
          (∃ reason, r.status = "failed:" ++ reason ∧
            ∃ msg, (send_task cfg hmacHex sv2 net gen st target_profile
              task_type payload route_via).1 = .error (.runtime msg)))) ∨
    ((send_task cfg hmacHex sv2 net gen st target_profile task_type
          payload route_via).2 = st ∧
        ((route_via = "hub" ∧ ∃ err, (send_task cfg hmacHex sv2 net gen st
            target_profile task_type payload route_via).1 = .error err) ∨
          ∃ msg, (send_task cfg hmacHex sv2 net gen st target_profile
            task_type payload route_via).1 = .error (.urlError msg))) := by
  rcases Option.isSome_iff_exists.mp h with ⟨target, htgt⟩
  unfold send_task
  rw [htgt]
  dsimp only
  by_cases hroute : (route_via == "hub") = true
  · rw [if_pos hroute]
    rcases send_route_via_hub_cases cfg hmacHex sv2 net gen st
        target_profile
        (build_envelope cfg hmacHex sv2 gen.nonce1 gen.now target_profile
          task_type payload)
        (payload_for_log payload none) with
      ⟨err, st1, heq, hst⟩ | ⟨hub, resp, heq⟩
    · rw [heq]
      right
      exact ⟨hst, Or.inl ⟨beq_iff_eq.mp hroute, err, rfl⟩⟩
    · rw [heq]
      left
      refine ⟨_, rfl, rfl, Or.inl ⟨⟨resp, rfl⟩, Or.inr ⟨hub, rfl⟩⟩⟩
  · rw [if_neg hroute]
    cases hnet : net target.2.host
        (build_envelope cfg hmacHex sv2 gen.nonce1 gen.now target_profile
          task_type payload) with
    | ok resp =>
        left
        refine ⟨_, rfl, rfl, Or.inl ⟨⟨_, rfl⟩, Or.inl rfl⟩⟩
    | error exc =>
        dsimp only
        by_cases hfb : (route_via == "auto" &&
            target_profile != ((routing_hub_profile cfg).getD "")) = true
        · rw [if_pos hfb]
          rcases send_route_via_hub_cases cfg hmacHex sv2 net gen st
              target_profile
              (build_envelope cfg hmacHex sv2 gen.nonce1 gen.now
                target_profile task_type payload)
              (payload_for_log payload none) with
            ⟨err, st1, heq, hst⟩ | ⟨hub, resp, heq⟩
          · rw [heq]
            cases err with
            | runtime msg =>
                left
                rw [hst]
                refine ⟨_, rfl, rfl, Or.inr ⟨exc, rfl, _, rfl⟩⟩
            | urlError msg =>
                right
                exact ⟨hst, Or.inr ⟨msg, rfl⟩⟩
          · rw [heq]
            left
            refine ⟨_, rfl, rfl, Or.inl ⟨⟨resp, rfl⟩, Or.inr ⟨hub, rfl⟩⟩⟩
        · rw [if_neg hfb]
          left
          refine ⟨_, rfl, rfl, Or.inr ⟨exc, rfl, _, rfl⟩⟩

/-- Counterexample to C4 as stated: `kiera` is a configured target and
the auto-route delivery fails in transit (direct POST and hub fallback
both raise transport errors), yet zero outbox MessageRecords are
appended — the hub fallback's URLError escapes the `except RuntimeError`
handler, skipping the `failed:` record. -/
theorem claim_C4_counterexample :
    ((configured_targets cfgS).find?
        (fun kv => kv.1 == "kiera")).isSome = true ∧
      (send_task cfgS (fun _ => "h") (fun _ => none) netDown genS stEmpty
        "kiera" "ping" Json.null "auto").2.messages.length = 0 ∧
      (send_task cfgS (fun _ => "h") (fun _ => none) netDown genS stEmpty
        "kiera" "ping" Json.null "auto").1 = .error (.urlError "down") := by
  refine ⟨by decide, rfl, rfl⟩

/-- Witness for C4 (amended) at a concrete configured target whose
direct delivery succeeds. -/
theorem claim_C4_amended_outbox_record_witness :
    ((configured_targets cfgS).find?
        (fun kv => kv.1 == "kiera")).isSome = true ∧
      ((∃ r, (send_task cfgS (fun _ => "h") (fun _ => none)
            (fun _ _ => .ok Json.null) genS stEmpty "kiera" "ping"
            Json.null "direct").2.messages = stEmpty.messages ++ [r] ∧
          r.direction = "outbox" ∧
          (((∃ resp, (send_task cfgS (fun _ => "h") (fun _ => none)
                (fun _ _ => .ok Json.null) genS stEmpty "kiera" "ping"
                Json.null "direct").1 = .ok resp) ∧
              (r.status = "sent" ∨
                ∃ hub, r.status = "sent:routed:" ++ hub)) ∨
            (∃ reason, r.status = "failed:" ++ reason ∧
              ∃ msg, (send_task cfgS (fun _ => "h") (fun _ => none)
                (fun _ _ => .ok Json.null) genS stEmpty "kiera" "ping"
                Json.null "direct").1 = .error (.runtime msg)))) ∨
        ((send_task cfgS (fun _ => "h") (fun _ => none)
            (fun _ _ => .ok Json.null) genS stEmpty "kiera" "ping"
            Json.null "direct").2 = stEmpty ∧
          (("direct" = "hub" ∧ ∃ err, (send_task cfgS (fun _ => "h")
              (fun _ => none) (fun _ _ => .ok Json.null) genS stEmpty
              "kiera" "ping" Json.null "direct").1 = .error err) ∨
            ∃ msg, (send_task cfgS (fun _ => "h") (fun _ => none)
              (fun _ _ => .ok Json.null) genS stEmpty "kiera" "ping"
              Json.null "direct").1 = .error (.urlError msg)))) :=
  ⟨by decide,
    claim_C4_amended_outbox_record cfgS (fun _ => "h") (fun _ => none)
      (fun _ _ => .ok Json.null) genS stEmpty "kiera" "ping" Json.null
      "direct" (by decide)⟩

/-! ## Daily check-in lemmas for C9 -/

/-- `_last_outbox_timestamp` ignores appended records for other
targets. -/
lemma last_outbox_timestamp_ext (st1 st : BridgeState)
    (extra : List MessageRecord) (p task_type : String)
    (hm : st1.messages = st.messages ++ extra)
    (h : ∀ m ∈ extra, m.target_node ≠ p) :
    last_outbox_timestamp st1 p task_type =
      last_outbox_timestamp st p task_type := by
  unfold last_outbox_timestamp
  rw [hm, List.filter_append]
  have hnil : extra.filter (fun m => m.direction == "outbox" &&
      m.target_node == p && m.task_type == task_type &&
      m.status == "sent") = [] := by
    apply List.filter_eq_nil_iff.mpr
    intro m hmm
    simp only [Bool.and_eq_true, beq_iff_eq, not_and]
    intro hc
    exact absurd hc.1.2 (h m hmm)
  rw [hnil, List.append_nil]

lemma checkin_due_ext (st1 st : BridgeState) (extra : List MessageRecord)
    (now interval_seconds : Int) (p : String)
    (hm : st1.messages = st.messages ++ extra)
    (h : ∀ m ∈ extra, m.target_node ≠ p) :
    checkin_due st1 now interval_seconds p =
      checkin_due st now interval_seconds p := by
  unfold checkin_due
  rw [last_outbox_timestamp_ext st1 st extra p "skills_checkin" hm h]

/-- Every `send_task` call only appends messages, all of them aimed at
the requested target profile. -/
lemma send_task_messages (cfg : BridgeConfig) (hmacHex : String → String)
    (sv2 : String → Option String)
    (net : String → Envelope → Except String Json) (gen : Gen)
    (st : BridgeState) (target_profile task_type : String) (payload : Json)
    (route_via : String) :
    ∃ extra, (send_task cfg hmacHex sv2 net gen st target_profile
        task_type payload route_via).2.messages = st.messages ++ extra ∧
      ∀ m ∈ extra, m.target_node = target_profile := by
  unfold send_task
  cases hfind : (configured_targets cfg).find?
      (fun kv => kv.1 == target_profile) with
  | none =>
      refine ⟨[], by simp, by simp⟩
  | some target =>
      dsimp only
      by_cases hroute : (route_via == "hub") = true
      · rw [if_pos hroute]
        rcases send_route_via_hub_cases cfg hmacHex sv2 net gen st
            target_profile
            (build_envelope cfg hmacHex sv2 gen.nonce1 gen.now
              target_profile task_type payload)
            (payload_for_log payload none) with
          ⟨err, st1, heq, hst⟩ | ⟨hub, resp, heq⟩
        · rw [heq, hst]
          refine ⟨[], by simp, by simp⟩
        · rw [heq]
          refine ⟨[_], rfl, ?_⟩
          intro m hm
          rw [List.mem_singleton.mp hm]
      · rw [if_neg hroute]
        cases hnet : net target.2.host
            (build_envelope cfg hmacHex sv2 gen.nonce1 gen.now
              target_profile task_type payload) with
        | ok resp =>
            refine ⟨[_], rfl, ?_⟩
            intro m hm
            rw [List.mem_singleton.mp hm]
        | error exc =>
            dsimp only
            by_cases hfb : (route_via == "auto" &&
                target_profile !=
                  ((routing_hub_profile cfg).getD "")) = true
            · rw [if_pos hfb]
              rcases send_route_via_hub_cases cfg hmacHex sv2 net gen st
                  target_profile
                  (build_envelope cfg hmacHex sv2 gen.nonce1 gen.now
                    target_profile task_type payload)
                  (payload_for_log payload none) with
                ⟨err, st1, heq, hst⟩ | ⟨hub, resp, heq⟩
              · rw [heq]
                cases err with
                | runtime msg =>
                    rw [hst]
                    refine ⟨[_], rfl, ?_⟩
                    intro m hm
                    rw [List.mem_singleton.mp hm]
                | urlError msg =>
                    rw [hst]
                    refine ⟨[], by simp, by simp⟩
              · rw [heq]
                refine ⟨[_], rfl, ?_⟩
                intro m hm
                rw [List.mem_singleton.mp hm]
            · rw [if_neg hfb]
              refine ⟨[_], rfl, ?_⟩
              intro m hm
              rw [List.mem_singleton.mp hm]

/-- Every result entry a completed wake returns is tagged with one of
the peers it was asked to process. -/
lemma daily_loop_targets (cfg : BridgeConfig) (hmacHex : String → String)
    (sv2 : String → Option String)
    (net : String → Envelope → Except String Json) (manifest : Json)
    (now interval_seconds : Int) :
    ∀ (ps : List String) (supply : List Gen) (st : BridgeState)
      (res : List Json),
      (daily_checkin_loop cfg hmacHex sv2 net manifest now
          interval_seconds ps supply st).1 = .ok res →
      ∀ j ∈ res, ∃ p ∈ ps, j.objGet "target" = some (.str p) := by
  intro ps
  induction ps with
  | nil =>
      intro supply st res hrun j hj
      unfold daily_checkin_loop at hrun
      simp only [Except.ok.injEq] at hrun
      rw [← hrun] at hj
      exact absurd hj (List.not_mem_nil j)
  | cons q rest ih =>
      intro supply st res hrun j hj
      rw [daily_checkin_loop] at hrun
      dsimp only at hrun
      split at hrun
      · rcases ih supply st res hrun j hj with ⟨p, hp, hjp⟩
        exact ⟨p, List.mem_cons_of_mem q hp, hjp⟩
      · cases hsend : send_task cfg hmacHex sv2 net (supply.headD {}) st q
            "skills_checkin" (checkin_payload manifest now) "auto" with
        | mk sres st1 =>
            rw [hsend] at hrun
            cases sres with
            | ok result =>
                dsimp only at hrun
                cases hout : (daily_checkin_loop cfg hmacHex sv2 net
                    manifest now interval_seconds rest supply.tail st1).1 with
                | error e =>
                    rw [hout] at hrun
                    exact absurd hrun (by simp [Except.map])
                | ok res0 =>
                    rw [hout] at hrun
                    simp only [Except.map, Except.ok.injEq] at hrun
                    rw [← hrun] at hj
                    rcases List.mem_cons.mp hj with hj0 | hj0
                    · refine ⟨q, List.mem_cons_self q rest, ?_⟩
                      rw [hj0]
                      rfl
                    · rcases ih supply.tail st1 res0 hout j hj0 with
                        ⟨p, hp, hjp⟩
                      exact ⟨p, List.mem_cons_of_mem q hp, hjp⟩
            | error err =>
                cases err with
                | runtime msg =>
                    dsimp only at hrun
                    cases hout : (daily_checkin_loop cfg hmacHex sv2 net
                        manifest now interval_seconds rest supply.tail
                        st1).1 with
                    | error e =>
                        rw [hout] at hrun
                        exact absurd hrun (by simp [Except.map])
                    | ok res0 =>
                        rw [hout] at hrun
                        simp only [Except.map, Except.ok.injEq] at hrun
                        rw [← hrun] at hj
                        rcases List.mem_cons.mp hj with hj0 | hj0
                        · refine ⟨q, List.mem_cons_self q rest, ?_⟩
                          rw [hj0]
                          rfl
                        · rcases ih supply.tail st1 res0 hout j hj0 with
                            ⟨p, hp, hjp⟩
                          exact ⟨p, List.mem_cons_of_mem q hp, hjp⟩
                | urlError m =>
                    dsimp only at hrun
                    exact absurd hrun (by simp)

/-- On a completed wake, a peer in the processed list gets exactly one
result entry iff its check-in was due at the wake's start state. -/
lemma daily_loop_attempt_iff (cfg : BridgeConfig)
    (hmacHex : String → String) (sv2 : String → Option String)
    (net : String → Envelope → Except String Json) (manifest : Json)
    (now interval_seconds : Int) :
    ∀ (ps : List String) (supply : List Gen) (st : BridgeState)
      (res : List Json),
      ps.Nodup →
      (daily_checkin_loop cfg hmacHex sv2 net manifest now
          interval_seconds ps supply st).1 = .ok res →
      ∀ p ∈ ps,
        ((∃ j ∈ res, j.objGet "target" = some (.str p)) ↔
          checkin_due st now interval_seconds p = true) := by
  intro ps
  induction ps with
  | nil =>
      intro supply st res hnodup hrun p hp
      exact absurd hp (List.not_mem_nil p)
  | cons q rest ih =>
      intro supply st res hnodup hrun p hp
      rw [List.nodup_cons] at hnodup
      rw [daily_checkin_loop] at hrun
      dsimp only at hrun
      rw [List.mem_cons] at hp
      split at hrun
      case isTrue hskip =>
        -- skipped: the due test failed and the state is unchanged
        have hdue : checkin_due st now interval_seconds q = false := by
          unfold checkin_due
          cases hlast : last_outbox_timestamp st q "skills_checkin" with
          | none =>
              rw [hlast] at hskip
              exact absurd hskip (by simp)
          | some t =>
              rw [hlast] at hskip
              dsimp only at hskip
              dsimp only
              rw [hskip]
              rfl
        rcases hp with hpq | hpr
        · rw [hpq]
          rw [hdue]
          constructor
          · rintro ⟨j, hj, hjt⟩
            rcases daily_loop_targets cfg hmacHex sv2 net manifest now
                interval_seconds rest supply st res hrun j hj with
              ⟨p2, hp2, hjt2⟩
            rw [hjt] at hjt2
            have : q = p2 := by
              have h2 := Option.some.inj hjt2
              exact (Json.str.inj h2.symm).symm
            rw [this] at hnodup
            exact absurd hp2 hnodup.1
          · intro hcontra
            exact absurd hcontra (by simp)
        · exact ih supply st res hnodup.2 hrun p hpr
      case isFalse hskip =>
        have hdue : checkin_due st now interval_seconds q = true := by
          unfold checkin_due
          cases hlast : last_outbox_timestamp st q "skills_checkin" with
          | none => rfl
          | some t =>
              rw [hlast] at hskip
              simp only [Bool.not_eq_true] at hskip
              dsimp only
              rw [hskip]
              rfl
        cases hsend : send_task cfg hmacHex sv2 net (supply.headD {}) st q
            "skills_checkin" (checkin_payload manifest now) "auto" with
        | mk sres st1 =>
            rw [hsend] at hrun
            obtain ⟨extra, hext1, hext2⟩ := send_task_messages cfg hmacHex
              sv2 net (supply.headD {}) st q "skills_checkin"
              (checkin_payload manifest now) "auto"
            rw [hsend] at hext1
            dsimp only at hext1
            cases sres with
            | ok result =>
                dsimp only at hrun
                cases hout : (daily_checkin_loop cfg hmacHex sv2 net
                    manifest now interval_seconds rest supply.tail st1).1 with
                | error e =>
                    rw [hout] at hrun
                    exact absurd hrun (by simp [Except.map])
                | ok res0 =>
                    rw [hout] at hrun
                    simp only [Except.map, Except.ok.injEq] at hrun
                    rw [← hrun]
                    rcases hp with hpq | hpr
                    · rw [hpq, hdue]
                      simp only [iff_true]
                      exact ⟨_, List.mem_cons_self _ res0, rfl⟩
                    · have hne : q ≠ p := fun hq => hnodup.1 (hq ▸ hpr)
                      have hih := ih supply.tail st1 res0 hnodup.2 hout p hpr
                      rw [checkin_due_ext st1 st extra now interval_seconds
                        p hext1 (fun m hm => hext2 m hm ▸ hne)] at hih
                      rw [← hih]
                      constructor
                      · rintro ⟨j, hj, hjt⟩
                        rcases List.mem_cons.mp hj with hj0 | hj0
                        · exfalso
                          rw [hj0] at hjt
                          have h2 := Option.some.inj hjt
                          exact hne (Json.str.inj h2)
                        · exact ⟨j, hj0, hjt⟩
                      · rintro ⟨j, hj, hjt⟩
                        exact ⟨j, List.mem_cons_of_mem _ hj, hjt⟩
            | error err =>
                cases err with
                | runtime msg =>
                    dsimp only at hrun
                    cases hout : (daily_checkin_loop cfg hmacHex sv2 net
                        manifest now interval_seconds rest supply.tail
                        st1).1 with
                    | error e =>
                        rw [hout] at hrun
                        exact absurd hrun (by simp [Except.map])
                    | ok res0 =>
                        rw [hout] at hrun
                        simp only [Except.map, Except.ok.injEq] at hrun
                        rw [← hrun]
                        rcases hp with hpq | hpr
                        · rw [hpq, hdue]
                          simp only [iff_true]
                          exact ⟨_, List.mem_cons_self _ res0, rfl⟩
                        · have hne : q ≠ p := fun hq => hnodup.1 (hq ▸ hpr)
                          have hih := ih supply.tail st1 res0 hnodup.2 hout
                            p hpr
                          rw [checkin_due_ext st1 st extra now
                            interval_seconds p hext1
                            (fun m hm => hext2 m hm ▸ hne)] at hih
                          rw [← hih]
                          constructor
                          · rintro ⟨j, hj, hjt⟩
                            rcases List.mem_cons.mp hj with hj0 | hj0
                            · exfalso
                              rw [hj0] at hjt
                              have h2 := Option.some.inj hjt
                              exact hne (Json.str.inj h2)
                            · exact ⟨j, hj0, hjt⟩
                          · rintro ⟨j, hj, hjt⟩
                            exact ⟨j, List.mem_cons_of_mem _ hj, hjt⟩
                | urlError m =>
                    dsimp only at hrun
                    exact absurd hrun (by simp)

/-- C9 (amended): on a wake of `send_daily_skills_checkins` that
completes without a propagated transport error, a skills check-in is
attempted for a configured peer iff the peer has no outbox
`skills_checkin` record with status exactly `sent` newer than
`interval_seconds`.  Records of hub-routed check-ins (status
`sent:routed:<hub>`) do not count toward the gate, and a wake aborted
by a propagated hub-fallback transport error skips its remaining
peers. -/
theorem claim_C9_amended_checkin_gate (cfg : BridgeConfig)
    (hmacHex : String → String) (sv2 : String → Option String)
    (net : String → Envelope → Except String Json) (manifest : Json)
    (now : Int) (supply : List Gen) (st : BridgeState)
    (interval_seconds : Int) (res : List Json)
    (h : (send_daily_skills_checkins cfg hmacHex sv2 net manifest now
        supply st interval_seconds).1 = .ok res) :
    ∀ p ∈ (configured_targets cfg).map (·.1),
      ((∃ j ∈ res, j.objGet "target" = some (.str p)) ↔
        checkin_due st now interval_seconds p = true) := by
  unfold send_daily_skills_checkins at h
  exact daily_loop_attempt_iff cfg hmacHex sv2 net manifest now
    interval_seconds ((configured_targets cfg).map (·.1)) supply st res
    (configured_targets_keys_nodup cfg) h

/-- Counterexample to C9 as stated: with only the hub reachable, the
first wake delivers kiera's check-in via the hub (outbox status
`sent:routed:jason`), and a second wake only 3600 s later — far inside
the 86400 s interval — sends kiera a second check-in, because the gate
looks only for status exactly `sent`.  Two check-ins are issued to the
same peer within one interval. -/
theorem claim_C9_counterexample :
    ((send_daily_skills_checkins cfgS (fun _ => "h") (fun _ => none)
          netHubOnly (Json.arr []) 4600 [genW2, genW2]
          (send_daily_skills_checkins cfgS (fun _ => "h") (fun _ => none)
            netHubOnly (Json.arr []) 1000 [genS, genS] stEmpty
            86400).2 86400).2.messages.filter
        (fun m => m.direction == "outbox" && m.target_node == "kiera" &&
          m.task_type == "skills_checkin")).length = 2 ∧
      ((4600 : Int) - 1000 < 86400) := by
  exact ⟨rfl, by decide⟩

/-- Witness for C9 (amended) at a concrete completed wake and the peer
`kiera`. -/
theorem claim_C9_amended_checkin_gate_witness :
    (∃ j ∈ resW, j.objGet "target" = some (.str "kiera")) ↔
      checkin_due stEmpty 1000 86400 "kiera" = true :=
  claim_C9_amended_checkin_gate cfgS (fun _ => "h") (fun _ => none)
    (fun _ _ => .ok Json.null) (Json.arr []) 1000 [genS, genS] stEmpty
    86400 resW rfl "kiera" (by decide)

/-- Supporting observation on the sign/verify round trip: the signature
check of `_validate_envelope` accepts any envelope whose `signature`
field was produced by `_sign` on that same envelope, because `_sign`
recomputes the identical deterministic HMAC over the identical
canonical form (which does not cover the `signature` field).  The
byte-flip half of the spec's round-trip property is collision-freeness
of HMAC-SHA-256 on distinct canonical messages and is not settled
here. -/
lemma sign_roundtrip_check (hmacHex : String → String) (e : Envelope) :
    (sign hmacHex { e with signature := sign hmacHex e } !=
      ({ e with signature := sign hmacHex e } : Envelope).signature) =
      false := by
  have hc : canonical_payload { e with signature := sign hmacHex e } =
      canonical_payload e := rfl
  show (hmacHex (canonical_payload
      { e with signature := sign hmacHex e }) != sign hmacHex e) = false
  rw [hc]
  unfold sign
  exact bne_self_eq_false _

end JCore
